import Mathlib

/-!
Verification of the YAML-to-Cluster two-stage code generator:
stage 1 (`dfg_processor.cpp`) turns a per-PE schedule into textual assembly,
stage 2 (`risc_v_assembler.cpp`) encodes that text into 32-bit words and a
memory-initialization image.  All definitions below are shallow embeddings of
the C++ source; C bit operations on two's-complement `int` are rendered with
`Int.ediv` / `Int.emod` (`/` and `%` on `Int`), which agree with arithmetic
shift right and bitwise mask by `2^k - 1` on two's-complement integers.
-/

/-! ## Stage 1 data model (dfg_processor.cpp) -/

/-- Hardware-loop descriptor, from `struct HardwareLoop` (dfg_processor.cpp:15). -/
structure HardwareLoop where
  loop_id : Int
  pc_start : Int
  pc_stop : Int
  hwl_index : Int
  iterations : Int
deriving DecidableEq, Repr

/-- Intermediate instruction, from `struct Instruction` (dfg_processor.cpp:23).
String fields default to the empty string (C++ default-constructed). -/
structure Instruction where
  operation : String := ""
  ra1 : String := ""
  ra2 : String := ""
  rd : String := ""
  base_address : String := ""
  format : String := ""
  coefficients : List (String × Int) := []
  var : Option Int := none
  psrf_var : List (String × Int) := []
  hwl : Option HardwareLoop := none
  imm : Int := 0
  target : String := ""
  address : Int := 0
  offset : Int := 0
deriving Repr

instance : Inhabited Instruction := ⟨{}⟩

/-- Per-PE instruction assignment, from `struct PEAssignment` (dfg_processor.cpp:40). -/
structure PEAssignment where
  pe_id : Int := 0
  instructions : List Instruction := []
  has_psrf_mem_type : Bool := false
  has_mem_type : Bool := false
  has_hwl : Bool := false
deriving Repr

instance : Inhabited PEAssignment := ⟨{}⟩

/-- Memory configuration maps of `DFGProcessor`: `mem_config` (absent keys read
as 0, matching `std::map::operator[]` default insertion) and `mem_offsets`
(`none` models an absent `<symbol>_offset` key, distinguished because the code
tests `count(offset_key) > 0`). -/
structure MemCfg where
  mem_config : String → Int
  mem_offsets : String → Option Int

/-- Cluster number of a PE, from `getClusterNumber` (dfg_processor.cpp:66). -/
def getClusterNumber (pe_id pes_per_cluster : Nat) : Nat :=
  pe_id / pes_per_cluster

/-- Cluster-relative base address, from `calculateClusterBaseAddress`
(dfg_processor.cpp:71-97). -/
def calculateClusterBaseAddress (cfg : MemCfg) (reg : String)
    (cluster_num data_dup pe_id : Int) : Int :=
  let base_addr := cfg.mem_config reg
  match cfg.mem_offsets (reg ++ "_offset") with
  | some ofs =>
    if ofs ≠ 0 then
      if data_dup = 2 then
        if pe_id > 15 then base_addr + ofs * cluster_num + 100000
        else base_addr + ofs * cluster_num
      else if data_dup = 4 then
        if pe_id > 15 ∧ pe_id < 31 then base_addr + ofs * cluster_num + 100000
        else if pe_id > 31 ∧ pe_id < 47 then base_addr + ofs * cluster_num + 200000
        else if pe_id > 47 ∧ pe_id < 63 then base_addr + ofs * cluster_num + 300000
        else base_addr + ofs * cluster_num
      else base_addr + ofs * cluster_num
    else base_addr
  | none => base_addr

/-- Signed split of an immediate into LUI/ADDI halves, from
`calculateLuiAddiValues` (dfg_processor.cpp:100-125).  `value & 0xFFF` is
`value % 4096` (`Int.emod`) and `(value >> 12) & 0xFFFFF` is
`value / 4096 % 1048576` on two's-complement integers. -/
def calculateLuiAddiValues (value : Int) : Int × Int :=
  if value ≥ -2048 ∧ value ≤ 2047 then (0, value)
  else
    let lower12 := value % 4096
    if lower12 ≥ 2048 then (value / 4096 % 1048576 + 1, lower12)
    else (value / 4096 % 1048576, lower12)

/-- Two's-complement reading of a 12-bit immediate field, as used by the
claims (`signed12`): fields in `[2048, 4095]` denote negative values. -/
def signed12 (l : Int) : Int :=
  if l ≥ 2048 then l - 4096 else l

/-- Normalization of an integer to the `int32` value it denotes
(two's-complement wrap-around), used to state 32-bit reconstruction. -/
def toInt32 (x : Int) : Int :=
  (x + 2 ^ 31) % 2 ^ 32 - 2 ^ 31

/-- Hardware-loop control-word packing, from `calculateHWLImmediate`
(dfg_processor.cpp:491-498).  In the source the second field is
`(hwl.pc_stop - hwl.pc_start) & 0x3F`: the delay is NOT subtracted from the
span.  The masked fields are disjoint, so the `|=` accumulation is a sum. -/
def calculateHWLImmediate (hwl : HardwareLoop) (delay : Int) : Int :=
  ((hwl.pc_start + delay) % 512) * 2 ^ 23 +
    ((hwl.pc_stop - hwl.pc_start) % 64) * 2 ^ 17 +
    (hwl.hwl_index % 32) * 2 ^ 12 +
    hwl.iterations % 4096

/-- Hardware-loop packing as the specification words state it
(`adjusted_span = pc_stop - adjusted_start` with
`adjusted_start = pc_start + delayCycles`), written only to compare with
`calculateHWLImmediate`. -/
def calculateHWLImmediateSpec (hwl : HardwareLoop) (delay : Int) : Int :=
  ((hwl.pc_start + delay) % 512) * 2 ^ 23 +
    ((hwl.pc_stop - (hwl.pc_start + delay)) % 64) * 2 ^ 17 +
    (hwl.hwl_index % 32) * 2 ^ 12 +
    hwl.iterations % 4096

/-- Split of the packed hardware-loop word, from `splitHWLImmediate`
(dfg_processor.cpp:501-508). -/
def splitHWLImmediate (imm : Int) : Int × Int :=
  let upper := imm / 4096 % 1048576
  let lower := imm % 4096
  if lower ≥ 2048 then (upper + 1, lower) else (upper, lower)

/-- Preload instructions emitted for one coefficient or scratch value. -/
inductive PreloadInstr where
  | ppsrfAddi (rd rs : Int) (imm : Int)
  | corfLui (rd : Int) (imm : Int)
  | corfAddi (rd rs : Int) (imm : Int)
deriving DecidableEq, Repr

/-- Leading-digits integer parse modelling `std::stoi`: optional sign then a
run of decimal digits (on malformed input `std::stoi` throws; this total model
returns 0 there, a case no settled claim depends on). -/
def digitsVal (l : List Char) : Int :=
  l.foldl (fun a c => a * 10 + ((c.toNat : Int) - ('0'.toNat : Int))) 0

/-- Characters treated as whitespace by the C++ helpers (" \t\n\r\f\v"). -/
def isSpaceCpp (c : Char) : Bool :=
  c = ' ' ∨ c = '\t' ∨ c = '\n' ∨ c = '\r' ∨ c = '\x0c' ∨ c = '\x0b'

/-- Model of `std::stoi` on a character list, see `digitsVal`. -/
def stoiChars (s : List Char) : Int :=
  match s.dropWhile isSpaceCpp with
  | '-' :: rest => -(digitsVal (rest.takeWhile Char.isDigit))
  | '+' :: rest => digitsVal (rest.takeWhile Char.isDigit)
  | s1 => digitsVal (s1.takeWhile Char.isDigit)

/-- Coefficient-load emission for one `c0..c5` entry of the preload block,
from the coefficient loop of `generatePreloadSection`
(dfg_processor.cpp:216-240).  `coef_key.substr(1)` is parsed with `stoi`;
`value >> 12` is `value / 4096` and `value & 0xFFF` is `value % 4096`. -/
def emitCoefficientLoad (reg_base : Int) (coef_key : String) (value : Int) :
    List PreloadInstr :=
  if value ≠ 0 then
    let base_reg := stoiChars (coef_key.toList.drop 1)
    let reg_num := reg_base + base_reg
    if value > 4095 then
      [.corfLui reg_num (value / 4096), .corfAddi reg_num reg_base (value % 4096)]
    else
      [.corfAddi reg_num reg_base value]
  else []

/-- PE ids that receive an assembly program, from the skip logic of
`generateAssembly` (dfg_processor.cpp:743-757): PEs whose
`pe % pes_per_cluster` exceeds `minimum_pes_required` are skipped, as are PEs
whose assigned instruction list (indexed by `pe % pes_per_cluster`) is empty
or has 10000 or more instructions. -/
def generateAssemblyPEs (total_pes pes_per_cluster minimum_pes_required : Nat)
    (pe_assignments : List PEAssignment) : List Nat :=
  (List.range total_pes).filter fun pe =>
    let base_pe := pe % pes_per_cluster
    if minimum_pes_required < base_pe then false
    else
      let n := (pe_assignments.getD base_pe default).instructions.length
      if 10000 ≤ n ∨ n = 0 then false else true

/-! ## Stage 2: binary encoder (risc_v_assembler.cpp) -/

/-- Whitespace trim, from `trim_string` (risc_v_assembler.cpp:30-37). -/
def trim_string (s : List Char) : List Char :=
  ((s.dropWhile isSpaceCpp).reverse.dropWhile isSpaceCpp).reverse

/-- Register table `x0..x31 -> 0..31`, `c0..c31 -> 0..31`, `v0..v31 -> 0..31`
built as in the constructor loop (risc_v_assembler.cpp:42-46). -/
def mkRegTable (p : String) : List (String × Int) :=
  (List.range 32).map fun i => (p ++ toString i, (i : Int))

/-- General registers `x0..x31`. -/
def registers : List (String × Int) := mkRegTable "x"

/-- Coefficient registers `c0..c31`. -/
def registers_c : List (String × Int) := mkRegTable "c"

/-- Scratch-variable registers `v0..v31`. -/
def registers_p : List (String × Int) := mkRegTable "v"

/-- Hardware-loop registers `L1..L7` (risc_v_assembler.cpp:49-51). -/
def hwl_registers : List (String × Int) :=
  (List.range 7).map fun i => ("L" ++ toString (i + 1), (i + 1 : Int))

/-- `std::map<string,string>::operator[]` read: default-constructed `""` for a
missing key. -/
def tableGet (m : List (String × String)) (k : String) : String :=
  (m.lookup k).getD ""

/-- `std::map<string,int>::operator[]` read: default `0` for a missing key. -/
def regGet (m : List (String × Int)) (k : String) : Int :=
  (m.lookup k).getD 0

/-- Opcode table `instructions` (risc_v_assembler.cpp:54-82). -/
def instructionsTable : List (String × String) :=
  [("lb", "0000011"), ("lh", "0000011"), ("lw", "0000011"),
   ("lbu", "0000011"), ("lhu", "0000011"),
   ("addi", "0010011"), ("slli", "0010011"), ("slti", "0010011"), ("sltiu", "0010011"),
   ("xori", "0010011"), ("srli", "0010011"), ("srai", "0010011"), ("ori", "0010011"),
   ("andi", "0010011"), ("auipc", "0010111"),
   ("sb", "0100011"), ("sh", "0100011"), ("sw", "0100011"),
   ("add", "0110011"), ("sub", "0110011"), ("sll", "0110011"), ("slt", "0110011"),
   ("sltu", "0110011"), ("xor", "0110011"), ("srl", "0110011"), ("sra", "0110011"),
   ("or", "0110011"), ("and", "0110011"), ("mul", "0110011"), ("lui", "0110111"),
   ("beq", "1100011"), ("bne", "1100011"), ("blt", "1100011"),
   ("bge", "1100011"), ("bltu", "1100011"), ("bgeu", "1100011"),
   ("jalr", "1100111"), ("jal", "1101111"),
   ("psrf.lw", "0000100"), ("psrf.sw", "0100100"),
   ("psrf.lb", "0000100"), ("psrf.sb", "0100100"),
   ("psrf.zd.lw", "0000100"),
   ("ppsrf.addi", "0010100"),
   ("corf.addi", "0010100"),
   ("corf.lui", "0111011"),
   ("hwlrf.lui", "0111100"),
   ("hwlrf.addi", "0010100"),
   ("ret", "0000000")]

/-- funct3 table (risc_v_assembler.cpp:85-110). -/
def funct3Table : List (String × String) :=
  [("lb", "000"), ("lh", "001"), ("lw", "010"),
   ("lbu", "100"), ("lhu", "101"),
   ("addi", "000"), ("slli", "001"), ("slti", "010"), ("sltiu", "011"),
   ("xori", "100"), ("srli", "101"), ("srai", "101"), ("ori", "110"),
   ("andi", "111"),
   ("sb", "000"), ("sh", "001"), ("sw", "010"),
   ("add", "000"), ("sub", "000"), ("sll", "001"), ("slt", "010"),
   ("sltu", "011"), ("xor", "100"), ("srl", "101"), ("sra", "101"),
   ("or", "110"), ("and", "111"), ("mul", "000"),
   ("beq", "000"), ("bne", "001"), ("blt", "100"),
   ("bge", "101"), ("bltu", "110"), ("bgeu", "111"),
   ("jalr", "000"),
   ("psrf.lw", "111"), ("psrf.lb", "000"),
   ("psrf.zd.lw", "110"),
   ("psrf.sw", "100"), ("psrf.sb", "000"),
   ("ppsrf.addi", "001"),
   ("corf.addi", "000"),
   ("hwlrf.addi", "010")]

/-- funct7 table (risc_v_assembler.cpp:113-118). -/
def funct7Table : List (String × String) :=
  [("slli", "0000000"), ("srli", "0000000"), ("srai", "0100000"),
   ("add", "0000000"), ("sub", "0100000"), ("sll", "0000000"), ("slt", "0000000"),
   ("sltu", "0000000"), ("xor", "0000000"), ("srl", "0000000"), ("sra", "0100000"),
   ("or", "0000000"), ("and", "0000000"), ("mul", "0000001")]

/-- Fixed-width big-endian binary rendering of the low `k` bits of `n`. -/
def natToBinDigits : Nat → Nat → List Char
  | _, 0 => []
  | n, k + 1 => natToBinDigits (n / 2) k ++ [if n % 2 = 1 then '1' else '0']

/-- Binary rendering, from `to_binary` (risc_v_assembler.cpp:121-128): a
negative `num` is first shifted by `2^length`, then the value is rendered via
`std::bitset<32>` (two's-complement low 32 bits, i.e. `emod 2^32`) and the low
`length` bits are kept (`substr(32 - length)`, for `length ≤ 32`). -/
def to_binaryChars (num : Int) (length : Nat) : List Char :=
  let num' := if num < 0 then 2 ^ length + num else num
  natToBinDigits (num' % 2 ^ 32).toNat length

/-- String form of `to_binaryChars`. -/
def to_binary (num : Int) (length : Nat) : String :=
  (to_binaryChars num length).asString

/-- Value of a binary-digit string, modelling `std::stoul(s, nullptr, 2)` on
the all-`0`/`1` strings the encoders produce. -/
def parseBinChars (l : List Char) : Nat :=
  l.foldl (fun a c => a * 2 + (if c = '1' then 1 else 0)) 0

/-- Lowercase hexadecimal digit. -/
def hexDigitChar (n : Nat) : Char :=
  "0123456789abcdef".toList.getD n '0'

/-- Minimal lowercase hexadecimal rendering (what `std::hex` prints), with a
structural fuel argument (`fuel = n` always suffices since `n / 16 < n`). -/
def natToHexFuel : Nat → Nat → List Char
  | 0, n => [hexDigitChar n]
  | fuel + 1, n =>
    if n < 16 then [hexDigitChar n]
    else natToHexFuel fuel (n / 16) ++ [hexDigitChar (n % 16)]

/-- Minimal lowercase hexadecimal rendering of `n`. -/
def natToHexAux (n : Nat) : List Char :=
  natToHexFuel n n

/-- Zero-padding to width `w`, modelling `setfill('0') << setw(w)`. -/
def natToHexPadded (n w : Nat) : String :=
  (List.replicate (w - (natToHexAux n).length) '0' ++ natToHexAux n).asString

/-- Hex rendering of a binary word, from `to_hex` (risc_v_assembler.cpp:130-134). -/
def to_hex (binary : String) : String :=
  natToHexPadded (parseBinChars binary.toList) 8

/-- R-type encoder, from `assemble_r_type` (risc_v_assembler.cpp:136-153). -/
def assemble_r_type (instruction rd rs1 rs2 : String) : String :=
  let opcode := tableGet instructionsTable instruction
  let func3 := tableGet funct3Table instruction
  let func7 := tableGet funct7Table instruction
  let rd_bin := to_binary (regGet registers rd) 5
  let rs1_bin := to_binary (regGet registers rs1) 5
  if instruction = "slli" ∨ instruction = "srli" ∨ instruction = "srai" then
    let imm := stoiChars rs2.toList
    let rs2_bin := to_binary imm 5
    func7 ++ rs2_bin ++ rs1_bin ++ func3 ++ rd_bin ++ opcode
  else
    let rs2_bin := to_binary (regGet registers rs2) 5
    func7 ++ rs2_bin ++ rs1_bin ++ func3 ++ rd_bin ++ opcode

/-- I-type encoder, from `assemble_i_type` (risc_v_assembler.cpp:155-174). -/
def assemble_i_type (instruction rd rs1 : String) (imm : Int) : String :=
  let opcode := tableGet instructionsTable instruction
  let func3 := tableGet funct3Table instruction
  let rd_bin := to_binary (regGet registers rd) 5
  let rs1_bin := to_binary (regGet registers rs1) 5
  let imm_bin := to_binary imm 12
  imm_bin ++ rs1_bin ++ func3 ++ rd_bin ++ opcode

/-- S-type encoder, from `assemble_s_type` (risc_v_assembler.cpp:176-186). -/
def assemble_s_type (instruction rs1 rs2 : String) (imm : Int) : String :=
  let opcode := tableGet instructionsTable instruction
  let func3 := tableGet funct3Table instruction
  let rs1_bin := to_binary (regGet registers rs1) 5
  let rs2_bin := to_binary (regGet registers rs2) 5
  let imm_bin := to_binaryChars imm 12
  let imm_high := (imm_bin.take 7).asString
  let imm_low := ((imm_bin.drop 7).take 5).asString
  imm_high ++ rs2_bin ++ rs1_bin ++ func3 ++ imm_low ++ opcode

/-- B-type encoder, from `assemble_b_type` (risc_v_assembler.cpp:188-200). -/
def assemble_b_type (instruction rs1 rs2 : String) (imm : Int) : String :=
  let opcode := tableGet instructionsTable instruction
  let func3 := tableGet funct3Table instruction
  let rs1_bin := to_binary (regGet registers rs1) 5
  let rs2_bin := to_binary (regGet registers rs2) 5
  let imm_bin := to_binaryChars imm 13
  let imm_12 := (imm_bin.take 1).asString
  let imm_10_5 := ((imm_bin.drop 2).take 6).asString
  let imm_4_1 := ((imm_bin.drop 8).take 4).asString
  let imm_11 := ((imm_bin.drop 1).take 1).asString
  imm_12 ++ imm_10_5 ++ rs2_bin ++ rs1_bin ++ func3 ++ imm_4_1 ++ imm_11 ++ opcode

/-- PSRF load/store encoder, from `assemble_psrf_lw_sw`
(risc_v_assembler.cpp:202-216); registers resolve in the general table, as in
the source. -/
def assemble_psrf_lw_sw (instruction rd rs1 : String) (imm : Int) : String :=
  let opcode := tableGet instructionsTable instruction
  let func3 := tableGet funct3Table instruction
  let rd_bin := to_binary (regGet registers rd) 5
  let rs1_bin := to_binary (regGet registers rs1) 5
  let imm_bin := to_binary imm 12
  imm_bin ++ rs1_bin ++ func3 ++ rd_bin ++ opcode

/-- U-type encoder, from `assemble_u_type` (risc_v_assembler.cpp:218-223). -/
def assemble_u_type (instruction rd : String) (imm : Int) : String :=
  let opcode := tableGet instructionsTable instruction
  let rd_bin := to_binary (regGet registers rd) 5
  let imm_bin := to_binary imm 20
  imm_bin ++ rd_bin ++ opcode

/-- CORF LUI encoder, from `assemble_corf_lui` (risc_v_assembler.cpp:232-237);
`imm & 0xFFFFF` is `imm % 1048576`. -/
def assemble_corf_lui (op rd : String) (imm : Int) : String :=
  let opcode := tableGet instructionsTable op
  let rd_bin := to_binary (regGet registers_c rd) 5
  let imm_bin := to_binary (imm % 1048576) 20
  imm_bin ++ rd_bin ++ opcode

/-- CORF ADDI encoder, from `assemble_corf_addi` (risc_v_assembler.cpp:238-245). -/
def assemble_corf_addi (op rd rs1 : String) (imm : Int) : String :=
  let opcode := tableGet instructionsTable op
  let func3 := tableGet funct3Table op
  let rd_bin := to_binary (regGet registers_c rd) 5
  let rs1_bin := to_binary (regGet registers_c rs1) 5
  let imm_bin := to_binary imm 12
  imm_bin ++ rs1_bin ++ func3 ++ rd_bin ++ opcode

/-- PPSRF ADDI encoder, from `assemble_ppsrf_addi` (risc_v_assembler.cpp:247-258). -/
def assemble_ppsrf_addi (op rd rs1 : String) (imm : Int) : String :=
  let opcode := tableGet instructionsTable op
  let func3 := tableGet funct3Table op
  let rd_bin := to_binary (regGet registers_p rd) 5
  let rs1_bin := to_binary (regGet registers_p rs1) 5
  let imm_bin := to_binary imm 12
  imm_bin ++ rs1_bin ++ func3 ++ rd_bin ++ opcode

/-- HWLRF LUI encoder, from `assemble_hwlrf_lui` (risc_v_assembler.cpp:260-265). -/
def assemble_hwlrf_lui (rd : String) (imm : Int) : String :=
  let opcode := tableGet instructionsTable "hwlrf.lui"
  let rd_bin := to_binary (regGet hwl_registers rd) 5
  let imm_bin := to_binary imm 20
  imm_bin ++ rd_bin ++ opcode

/-- HWLRF ADDI encoder, from `assemble_hwlrf_addi` (risc_v_assembler.cpp:267-274). -/
def assemble_hwlrf_addi (rd rs1 : String) (imm : Int) : String :=
  let opcode := tableGet instructionsTable "hwlrf.addi"
  let func3 := tableGet funct3Table "hwlrf.addi"
  let rd_bin := to_binary (regGet hwl_registers rd) 5
  let rs1_bin := to_binary (regGet hwl_registers rs1) 5
  let imm_bin := to_binary imm 12
  imm_bin ++ rs1_bin ++ func3 ++ rd_bin ++ opcode

/-- J-type encoder, from `assemble_j_type` (risc_v_assembler.cpp:276-288). -/
def assemble_j_type (rd : String) (imm : Int) : String :=
  let opcode := tableGet instructionsTable "jal"
  let rd_bin := to_binary (regGet registers rd) 5
  let imm_bin := to_binaryChars imm 21
  let imm_20 := (imm_bin.take 1).asString
  let imm_10_1 := ((imm_bin.drop 11).take 10).asString
  let imm_11 := ((imm_bin.drop 10).take 1).asString
  let imm_19_12 := ((imm_bin.drop 1).take 8).asString
  imm_20 ++ imm_10_1 ++ imm_11 ++ imm_19_12 ++ rd_bin ++ opcode

/-- Substring containment, modelling `std::string::find(needle) != npos`. -/
def containsInfix (needle : List Char) : List Char → Bool
  | [] => needle.isPrefixOf []
  | c :: t => needle.isPrefixOf (c :: t) || containsInfix needle t

/-- First whitespace-delimited token and the remainder, modelling
`iss >> op; std::getline(iss, args_str)` (risc_v_assembler.cpp:295-299). -/
def extractOp (line : List Char) : List Char × List Char :=
  let rest := line.dropWhile isSpaceCpp
  (rest.takeWhile (fun c => ¬ isSpaceCpp c), rest.dropWhile (fun c => ¬ isSpaceCpp c))

/-- Comma splitting of the argument string, parenthesis-aware, from the
tokenizing loop of `parse_instruction` (risc_v_assembler.cpp:306-335):
`cur` accumulates the characters since the last cut; a comma outside
parentheses cuts a token, which is trimmed and kept if non-empty. -/
def splitArgsGo : List Char → List Char → Bool → List (List Char)
  | [], cur, _ =>
    if cur = [] then []
    else
      let t := trim_string cur
      if t = [] then [] else [t]
  | c :: rest, cur, inParen =>
    let inParen' := if c = '(' then true else if c = ')' then false else inParen
    if c = ',' ∧ ¬ inParen' then
      let t := trim_string cur
      (if t = [] then [] else [t]) ++ splitArgsGo rest [] inParen'
    else splitArgsGo rest (cur ++ [c]) inParen'

/-- The argument tokens of an instruction line. -/
def splitArgs (s : List Char) : List String :=
  (splitArgsGo s [] false).map List.asString

/-- `offset(base)` operand parse, from the parenthesis handling shared by the
S-type and PSRF branches (risc_v_assembler.cpp:375-389, 443-455): the first
`'('` and the first `')'` at or after it delimit the base register; an empty
offset part reads as 0.  `none` when either parenthesis is missing (the source
then emits nothing). -/
def parseOffsetBase (s : List Char) : Option (Int × String) :=
  match s.findIdx? (fun c => c = '(') with
  | none => none
  | some open_i =>
    match (s.drop open_i).findIdx? (fun c => c = ')') with
    | none => none
    | some d =>
      let close_i := open_i + d
      let offset_str := trim_string (s.take open_i)
      let base_reg := trim_string ((s.drop (open_i + 1)).take (close_i - open_i - 1))
      let off := if offset_str = [] then 0 else stoiChars offset_str
      some (off, base_reg.asString)

/-- Mnemonic dispatch of `parse_instruction` (risc_v_assembler.cpp:337-480),
returning the binary string (empty when no branch assigns one).  Argument
accesses are guarded by the same length tests as the source. -/
def parseDispatch (op : String) (args : List String) : String :=
  if op = "hwlrf.lui" then
    if 2 ≤ args.length then
      assemble_hwlrf_lui (args.getD 0 "") (stoiChars (args.getD 1 "").toList)
    else ""
  else if op = "hwlrf.addi" then
    if 3 ≤ args.length then
      assemble_hwlrf_addi (args.getD 0 "") (args.getD 1 "") (stoiChars (args.getD 2 "").toList)
    else ""
  else if op = "lui" ∨ op = "auipc" then
    if 2 ≤ args.length then
      assemble_u_type op (args.getD 0 "") (stoiChars (args.getD 1 "").toList)
    else ""
  else if op = "add" ∨ op = "sub" ∨ op = "sll" ∨ op = "slt" ∨ op = "sltu" ∨
      op = "xor" ∨ op = "srl" ∨ op = "sra" ∨ op = "or" ∨ op = "and" ∨
      op = "mul" ∨ op = "slli" ∨ op = "srli" ∨ op = "srai" then
    if 3 ≤ args.length then
      assemble_r_type op (args.getD 0 "") (args.getD 1 "") (args.getD 2 "")
    else ""
  else if op = "addi" ∨ op = "slti" ∨ op = "sltiu" ∨ op = "xori" ∨ op = "ori" ∨
      op = "andi" ∨ op = "jalr" then
    if 3 ≤ args.length then
      assemble_i_type op (args.getD 0 "") (args.getD 1 "") (stoiChars (args.getD 2 "").toList)
    else ""
  else if op = "sb" ∨ op = "sh" ∨ op = "sw" then
    if 2 ≤ args.length then
      match parseOffsetBase (args.getD 1 "").toList with
      | some ob => assemble_s_type op ob.2 (args.getD 0 "") ob.1
      | none => ""
    else ""
  else if op = "beq" ∨ op = "bne" ∨ op = "blt" ∨ op = "bge" ∨
      op = "bltu" ∨ op = "bgeu" then
    if 3 ≤ args.length then
      assemble_b_type op (args.getD 0 "") (args.getD 1 "") (stoiChars (args.getD 2 "").toList)
    else ""
  else if op = "jal" then
    if 2 ≤ args.length then
      assemble_j_type (args.getD 0 "") (stoiChars (args.getD 1 "").toList)
    else ""
  else if op = "ppsrf.addi" then
    if 3 ≤ args.length then
      assemble_ppsrf_addi op (args.getD 0 "") (args.getD 1 "") (stoiChars (args.getD 2 "").toList)
    else ""
  else if op = "corf.addi" then
    if 3 ≤ args.length then
      assemble_corf_addi op (args.getD 0 "") (args.getD 1 "") (stoiChars (args.getD 2 "").toList)
    else ""
  else if op = "corf.lui" then
    if 2 ≤ args.length then
      assemble_corf_lui op (args.getD 0 "") (stoiChars (args.getD 1 "").toList)
    else ""
  else if op = "ret" then assemble_i_type "addi" "x0" "x0" 0
  else if op = "nop" then assemble_i_type "addi" "x0" "x0" 0
  else if containsInfix "psrf.".toList op.toList then
    if op = "psrf.lw" ∨ op = "psrf.lb" ∨ op = "psrf.zd.lw" then
      if 2 ≤ args.length then
        match parseOffsetBase (args.getD 1 "").toList with
        | some ob => assemble_psrf_lw_sw op (args.getD 0 "") ob.2 ob.1
        | none => ""
      else ""
    else if op = "psrf.sw" ∨ op = "psrf.sb" then
      if 2 ≤ args.length then
        match parseOffsetBase (args.getD 1 "").toList with
        | some ob => assemble_psrf_lw_sw op (args.getD 0 "") ob.2 ob.1
        | none => ""
      else ""
    else ""
  else ""

/-- Result of assembling one line, from `struct AssembledInstruction`
(risc_v_assembler.cpp:12). -/
structure AssembledInstruction where
  op : String := ""
  binary : String := ""
  hex : String := ""
  is_execution : Bool := false
deriving DecidableEq, Repr

/-- One-line assembly, from `parse_instruction` (risc_v_assembler.cpp:291-488):
tokenize, dispatch on the mnemonic, and render hex only when a binary was
produced. -/
def parse_instruction (line : String) : AssembledInstruction :=
  let lc := line.toList
  let opL := (extractOp lc).1
  let args := splitArgs (trim_string (extractOp lc).2)
  let op := opL.asString
  let binary := parseDispatch op args
  { op := op, binary := binary,
    hex := if binary ≠ "" then to_hex binary else "" }

/-- Line filter of the `assemble` read loop (risc_v_assembler.cpp:517-525):
blank lines and lines starting with `#`, `.`, `_`, or containing `:` are
skipped. -/
def skipLine (trimmed : List Char) : Bool :=
  trimmed = [] ∨ trimmed.headD ' ' = '#' ∨ trimmed.headD ' ' = '.' ∨
    trimmed.headD ' ' = '_' ∨ trimmed.contains ':'

/-- Execution-section marker test (risc_v_assembler.cpp:522). -/
def markerHit (trimmed : List Char) : Bool :=
  containsInfix "Execution Section Begin".toList trimmed

/-- The read loop of `assemble` (risc_v_assembler.cpp:515-532): skipped lines
may flip the in-execution flag; every other line is parsed and tagged with the
current section. -/
def buildAssembledGo : List String → Bool → List AssembledInstruction
  | [], _ => []
  | line :: rest, inExec =>
    let trimmed := trim_string line.toList
    if skipLine trimmed then
      let inExec' := if markerHit trimmed then true else inExec
      buildAssembledGo rest inExec'
    else
      { parse_instruction trimmed.asString with is_execution := inExec } ::
        buildAssembledGo rest inExec

/-- Parsed instruction stream of an input file. -/
def buildAssembled (lines : List String) : List AssembledInstruction :=
  buildAssembledGo lines false

/-- Execution-section address, from risc_v_assembler.cpp:553:
`((pe_number & 0xFF) << 10) | execution_count`. -/
def memAddressExec (pe_number idx : Nat) : Nat :=
  (pe_number % 256) * 1024 ||| idx

/-- Preload-section address, from risc_v_assembler.cpp:558:
`((pe_number & 0xFF) << 10) | (1 << 9) | preload_count`. -/
def memAddressPre (pe_number idx : Nat) : Nat :=
  (pe_number % 256) * 1024 ||| 512 ||| idx

/-- The address formula stated by the specification:
`(pe_id & 0xFF) << 10 | section_bit << 9 | local_index`. -/
def addressFormula (pe_number section_bit local_index : Nat) : Nat :=
  (pe_number % 256) * 2 ^ 10 ||| section_bit * 2 ^ 9 ||| local_index

/-- State of the emission loop of `assemble` (risc_v_assembler.cpp:545-583):
section counters, hex-file lines, and `.mem` records. -/
structure EmitState where
  preload_count : Nat := 0
  execution_count : Nat := 0
  hex_lines : List String := []
  mem_entries : List String := []
deriving DecidableEq, Repr

/-- A `@ADDRESS WORD` record (risc_v_assembler.cpp:572-574). -/
def memEntryStr (address : Nat) (hex : String) : String :=
  "@" ++ natToHexPadded address 8 ++ " " ++ hex

/-- One iteration of the emission loop (risc_v_assembler.cpp:546-583): every
assembled entry, recognized or not, is assigned an address, advances its
section counter, and is written to the hex file and the `.mem` records. -/
def emitOne (pe_number : Nat) (st : EmitState) (instr : AssembledInstruction) :
    EmitState :=
  if instr.is_execution then
    let address := memAddressExec pe_number st.execution_count
    { st with execution_count := st.execution_count + 1,
              hex_lines := st.hex_lines ++ [instr.hex],
              mem_entries := st.mem_entries ++ [memEntryStr address instr.hex] }
  else
    let address := memAddressPre pe_number st.preload_count
    { st with preload_count := st.preload_count + 1,
              hex_lines := st.hex_lines ++ [instr.hex],
              mem_entries := st.mem_entries ++ [memEntryStr address instr.hex] }

/-- Whole-file assembly and emission for one PE (risc_v_assembler.cpp:491-594). -/
def assembleEmit (pe_number : Nat) (lines : List String) : EmitState :=
  (buildAssembled lines).foldl (emitOne pe_number) {}

/-- Insert-or-replace on an association list, modelling assignment through
`std::map::operator[]` (`all_memory_entries[pe_number] = ...`,
risc_v_assembler.cpp:678). -/
def mapInsert : List (Nat × List String) → Nat → List String →
    List (Nat × List String)
  | [], k, v => [(k, v)]
  | (k', v') :: rest, k, v =>
    if k = k' then (k, v) :: rest else (k', v') :: mapInsert rest k v

/-- The `all_memory_entries` map after processing the given files in order,
each file contributing its PE number (0xFFFF when unresolved) and its memory
records (risc_v_assembler.cpp:641-687). -/
def buildMap (files : List (Nat × List String)) : List (Nat × List String) :=
  files.foldl (fun m kv => mapInsert m kv.1 kv.2) []

/-- `total_pes` computation of the combined write (risc_v_assembler.cpp:694-699):
the maximum `pe + 1` over resolved PE keys. -/
def totalPEsOf (m : List (Nat × List String)) : Nat :=
  m.foldl (fun acc kv => if kv.1 ≠ 0xFFFF then max acc (kv.1 + 1) else acc) 0

/-- Resolved-PE blocks of the combined memory file, in loop order
(risc_v_assembler.cpp:705-712): `pe = 0, 1, ..., total_pes - 1`, keeping the
PEs present in the map, each block carrying its marker id and its records. -/
def combinedBlocks (m : List (Nat × List String)) : List (Nat × List String) :=
  (List.range (totalPEsOf m)).filterMap fun pe =>
    (m.lookup pe).map fun es => (pe, es)

/-- Trailing unresolved-PE block (risc_v_assembler.cpp:715-720). -/
def unknownTail (m : List (Nat × List String)) : List (Nat × List String) :=
  match m.lookup 0xFFFF with
  | some es => [(0xFFFF, es)]
  | none => []

/-- The combined memory file, as the sequence of PE blocks it lists
(risc_v_assembler.cpp:689-720). -/
def combinedFile (files : List (Nat × List String)) : List (Nat × List String) :=
  combinedBlocks (buildMap files) ++ unknownTail (buildMap files)

/-- Concrete configuration realizing the spec's bank-selection vector:
base 4096 for symbol `x10`, per-cluster stride 256. -/
def cfgBankExample : MemCfg :=
  ⟨fun s => if s = "x10" then 4096 else 0,
   fun s => if s = "x10_offset" then some 256 else none⟩

/-- The mnemonics for which some branch of `parse_instruction` can assign a
binary word (risc_v_assembler.cpp:337-480). -/
def recognizedMnemonics : List String :=
  ["hwlrf.lui", "hwlrf.addi", "lui", "auipc",
   "add", "sub", "sll", "slt", "sltu", "xor", "srl", "sra", "or", "and",
   "mul", "slli", "srli", "srai",
   "addi", "slti", "sltiu", "xori", "ori", "andi", "jalr",
   "sb", "sh", "sw",
   "beq", "bne", "blt", "bge", "bltu", "bgeu",
   "jal", "ppsrf.addi", "corf.addi", "corf.lui", "ret", "nop",
   "psrf.lw", "psrf.lb", "psrf.zd.lw", "psrf.sw", "psrf.sb"]

/-! ## Helper lemmas -/

theorem lor_mul_pow_two_add : ∀ (k p x : Nat), x < 2 ^ k →
    p * 2 ^ k ||| x = p * 2 ^ k + x
  | 0, p, x, hx => by
    have hx0 : x = 0 := by omega
    subst hx0; simp
  | k + 1, p, x, hx => by
    have hpow : (2 : Nat) ^ (k + 1) = 2 * 2 ^ k := by ring
    have hx2 : x / 2 < 2 ^ k := by omega
    have h1 : p * 2 ^ (k + 1) = Nat.bit false (p * 2 ^ k) := by
      rw [Nat.bit_val]; simp [pow_succ]; ring
    have h2 : Nat.bit x.bodd x.div2 = x := Nat.bit_decomp x
    have IH := lor_mul_pow_two_add k p (x / 2) hx2
    calc p * 2 ^ (k + 1) ||| x
        = Nat.bit false (p * 2 ^ k) ||| Nat.bit x.bodd x.div2 := by rw [h1, h2]
      _ = Nat.bit (false || x.bodd) (p * 2 ^ k ||| x.div2) :=
          Nat.lor_bit false (p * 2 ^ k) x.bodd x.div2
      _ = Nat.bit x.bodd (p * 2 ^ k + x / 2) := by
          rw [Bool.false_or, Nat.div2_val, IH]
      _ = p * 2 ^ (k + 1) + x := by
          have hb := Nat.mod_two_of_bodd x
          have hs : p * 2 ^ (k + 1) = 2 * (p * 2 ^ k) := by rw [pow_succ]; ring
          rw [Nat.bit_val, hs]
          cases hx' : x.bodd <;> simp [hx'] at hb ⊢ <;> omega

theorem lor_lt_two_pow_nat {x y n : Nat} (hx : x < 2 ^ n) (hy : y < 2 ^ n) :
    x ||| y < 2 ^ n :=
  Nat.bitwise_lt hx hy

theorem memAddressExec_eq_add (pe idx : Nat) (h : idx < 1024) :
    memAddressExec pe idx = (pe % 256) * 1024 + idx := by
  show (pe % 256) * 2 ^ 10 ||| idx = (pe % 256) * 2 ^ 10 + idx
  exact lor_mul_pow_two_add 10 (pe % 256) idx h

theorem memAddressPre_eq_add (pe idx : Nat) (h : idx < 512) :
    memAddressPre pe idx = (pe % 256) * 1024 + 512 + idx := by
  show (pe % 256) * 2 ^ 10 ||| 512 ||| idx = (pe % 256) * 2 ^ 10 + 512 + idx
  rw [lor_mul_pow_two_add 10 (pe % 256) 512 (by norm_num)]
  have h2 : (pe % 256) * 2 ^ 10 + 512 = (2 * (pe % 256) + 1) * 2 ^ 9 := by ring
  rw [h2, lor_mul_pow_two_add 9 (2 * (pe % 256) + 1) idx h]

theorem memAddressPre_eq_add' (pe idx : Nat) (h : idx < 1024) :
    memAddressPre pe idx = (pe % 256) * 1024 + (512 ||| idx) := by
  show (pe % 256) * 2 ^ 10 ||| 512 ||| idx = (pe % 256) * 2 ^ 10 + (512 ||| idx)
  rw [Nat.lor_assoc]
  exact lor_mul_pow_two_add 10 (pe % 256) (512 ||| idx)
    (lor_lt_two_pow_nat (by norm_num) h)

/-! ## Claims -/

/-- Claim C1: for every `int32` value `v`, `calculateLuiAddiValues v` returns
`(upper20, lower12)` with `(upper20 << 12) + signed12 lower12 == v` in 32-bit
two's-complement arithmetic; concretely the splits of 3000, 5000 and 100 are
`(1, -1096)`, `(1, 904)` and `(0, 100)` under the signed reading of the lower
field. -/
theorem C1_split_immediate_roundtrip :
    (∀ v : Int, -(2 ^ 31) ≤ v → v < 2 ^ 31 →
      toInt32 ((calculateLuiAddiValues v).1 * 4096 +
        signed12 (calculateLuiAddiValues v).2) = v) ∧
    ((calculateLuiAddiValues 3000).1, signed12 (calculateLuiAddiValues 3000).2)
      = (1, -1096) ∧
    ((calculateLuiAddiValues 5000).1, signed12 (calculateLuiAddiValues 5000).2)
      = (1, 904) ∧
    ((calculateLuiAddiValues 100).1, signed12 (calculateLuiAddiValues 100).2)
      = (0, 100) := by
  refine ⟨?_, by decide, by decide, by decide⟩
  intro v h1 h2
  simp only [calculateLuiAddiValues, signed12, toInt32]
  split_ifs <;> dsimp only at * <;> omega

/-- Claim C1 witness: the round-trip theorem applied at `v = 3000`. -/
theorem C1_witness :
    toInt32 ((calculateLuiAddiValues 3000).1 * 4096 +
      signed12 (calculateLuiAddiValues 3000).2) = 3000 :=
  C1_split_immediate_roundtrip.1 3000 (by norm_num) (by norm_num)

/-- Claim C2 (code bug): the code's `calculateHWLImmediate` packs the span
field as `(pc_stop - pc_start) & 0x3F`, NOT `(pc_stop - (pc_start +
delayCycles)) & 0x3F` as the claim (and the comment the program itself emits,
dfg_processor.cpp:278-282) states.  At `pc_start = 10, pc_stop = 50,
hwl_index = 2, iterations = 8, delayCycles = 3` the code's span field is 40
while the claimed field is 37; the two packings agree exactly when
`delayCycles = 0`. -/
theorem C2_hwl_pack_divergence :
    calculateHWLImmediate ⟨1, 10, 50, 2, 8⟩ 3 = 114302984 ∧
    calculateHWLImmediateSpec ⟨1, 10, 50, 2, 8⟩ 3 = 113909768 ∧
    calculateHWLImmediate ⟨1, 10, 50, 2, 8⟩ 3 / 2 ^ 17 % 64 = 40 ∧
    calculateHWLImmediateSpec ⟨1, 10, 50, 2, 8⟩ 3 / 2 ^ 17 % 64 = 37 ∧
    (∀ hwl : HardwareLoop, calculateHWLImmediate hwl 0 =
      calculateHWLImmediateSpec hwl 0) := by
  refine ⟨by decide, by decide, by decide, by decide, ?_⟩
  intro hwl
  simp [calculateHWLImmediate, calculateHWLImmediateSpec]

/-- Claim C3 counterexample: as universally stated over all local indices and
all PE ids the claim is false on the code.  Execution index 512 of PE 0
collides with preload index 0 of PE 0 (both address 512), and PE 0 and
PE 256 are distinct PE ids whose address sets coincide (the PE field is
`pe & 0xFF`). -/
theorem C3_counterexample :
    memAddressExec 0 512 = memAddressPre 0 0 ∧
    memAddressExec 0 512 = 512 ∧
    memAddressExec 0 0 = memAddressExec 256 0 := by
  decide

/-- Claim C3 (amended): section disjointness holds for local indices below
512 (the capacity of the 9-bit index field), and the 1024-word windows of two
PEs are disjoint provided the PE ids differ modulo 256 and the local indices
stay below 1024. -/
theorem C3_address_disjointness :
    (∀ pe i j, i < 512 → j < 512 → memAddressExec pe i ≠ memAddressPre pe j) ∧
    (∀ pe1 pe2 i j, pe1 % 256 ≠ pe2 % 256 → i < 1024 → j < 1024 →
      ∀ b1 b2 : Bool,
        (cond b1 (memAddressExec pe1 i) (memAddressPre pe1 i)) ≠
          (cond b2 (memAddressExec pe2 j) (memAddressPre pe2 j))) := by
  constructor
  · intro pe i j hi hj
    rw [memAddressExec_eq_add pe i (by omega), memAddressPre_eq_add pe j hj]
    omega
  · intro pe1 pe2 i j hne hi hj b1 b2
    have hb1 : 512 ||| i < 1024 := @lor_lt_two_pow_nat 512 i 10 (by norm_num) (by omega)
    have hb2 : 512 ||| j < 1024 := @lor_lt_two_pow_nat 512 j 10 (by norm_num) (by omega)
    have e1 := memAddressExec_eq_add pe1 i hi
    have e2 := memAddressExec_eq_add pe2 j hj
    have p1 := memAddressPre_eq_add' pe1 i hi
    have p2 := memAddressPre_eq_add' pe2 j hj
    cases b1 <;> cases b2 <;>
      simp only [Bool.cond_true, Bool.cond_false, e1, e2, p1, p2] <;> omega

/-- Claim C3 witness: the amended statement applied at concrete inputs. -/
theorem C3_witness :
    memAddressExec 7 3 ≠ memAddressPre 7 3 ∧
    memAddressExec 0 0 ≠ memAddressExec 1 0 :=
  ⟨C3_address_disjointness.1 7 3 3 (by norm_num) (by norm_num),
   by
    have h := C3_address_disjointness.2 0 1 0 0 (by norm_num) (by norm_num)
      (by norm_num) true true
    simpa using h⟩

/-- Claim C4: the memory address of a word is
`(pe_id & 0xFF) << 10 | section_bit << 9 | local_index` with `section_bit = 1`
for preload and `0` for execution; concretely PE 3 execution index 5 maps to
`0xC05` (3077) and PE 3 preload index 2 maps to `0xE02` (3586). -/
theorem C4_address_formula :
    (∀ pe idx, memAddressExec pe idx = addressFormula pe 0 idx) ∧
    (∀ pe idx, memAddressPre pe idx = addressFormula pe 1 idx) ∧
    memAddressExec 3 5 = 0xC05 ∧ memAddressExec 3 5 = 3077 ∧
    memAddressPre 3 2 = 0xE02 ∧ memAddressPre 3 2 = 3586 := by
  refine ⟨?_, ?_, by decide, by decide, by decide, by decide⟩
  · intro pe idx
    simp [memAddressExec, addressFormula]
  · intro pe idx
    simp [memAddressPre, addressFormula]

/-- Claim C5: with a configured non-zero stride and duplication factor 2,
`calculateClusterBaseAddress` adds the bank constant 100000 exactly for
`pe_id > 15`; with the stride absent or zero the plain base address is
returned for every duplication factor; concretely base 4096, stride 256,
cluster 1 (PE 20 of 16-PE clusters), factor 2 gives 104352. -/
theorem C5_cluster_address :
    (∀ (cfg : MemCfg) (reg : String) (cluster pe s : Int),
      cfg.mem_offsets (reg ++ "_offset") = some s → s ≠ 0 →
      calculateClusterBaseAddress cfg reg cluster 2 pe =
        if pe > 15 then cfg.mem_config reg + s * cluster + 100000
        else cfg.mem_config reg + s * cluster) ∧
    (∀ (cfg : MemCfg) (reg : String) (cluster d pe : Int),
      (cfg.mem_offsets (reg ++ "_offset") = none ∨
        cfg.mem_offsets (reg ++ "_offset") = some 0) →
      calculateClusterBaseAddress cfg reg cluster d pe = cfg.mem_config reg) ∧
    (getClusterNumber 20 16 = 1 ∧
      calculateClusterBaseAddress cfgBankExample "x10" 1 2 20 = 104352) := by
  refine ⟨?_, ?_, by decide, ?_⟩
  · intro cfg reg cluster pe s hs hs0
    simp only [calculateClusterBaseAddress, hs]
    simp [hs0]
  · intro cfg reg cluster d pe h
    rcases h with h | h <;> simp [calculateClusterBaseAddress, h]
  · decide

/-- Claim C5 witness: both branches of the cluster-address theorem applied at
concrete inputs. -/
theorem C5_witness :
    calculateClusterBaseAddress cfgBankExample "x10" 1 2 20 = 104352 ∧
    calculateClusterBaseAddress ⟨fun _ => 7, fun _ => none⟩ "a" 3 4 50 = 7 := by
  constructor
  · have h := C5_cluster_address.1 cfgBankExample "x10" 1 20 256 (by decide) (by decide)
    rw [h]
    decide
  · exact C5_cluster_address.2.1 ⟨fun _ => 7, fun _ => none⟩ "a" 3 4 50 (Or.inl rfl)

/-- Claim C6 counterexample: the claim says the two-instruction
large-immediate form is used exactly when the coefficient's MAGNITUDE exceeds
4095, but the code tests `value > 4095` (signed): the coefficient -5000 has
magnitude 5000 > 4095 yet is emitted as a single `corf.addi`. -/
theorem C6_counterexample :
    emitCoefficientLoad 0 "c2" (-5000) = [.corfAddi 2 0 (-5000)] ∧
    (emitCoefficientLoad 0 "c2" (-5000)).length = 1 ∧
    ((-5000 : Int).natAbs > 4095) := by
  decide

/-- Claim C6 (amended): a non-zero coefficient is emitted as the
two-instruction `corf.lui`/`corf.addi` form (upper `value >> 12`, lower
`value & 0xFFF`) exactly when its signed value exceeds 4095 — negative
coefficients always take the single `corf.addi` form — and zero-valued
coefficients produce no instruction. -/
theorem C6_coefficient_emission (reg_base : Int) (key : String) (v : Int) :
    (v = 0 → emitCoefficientLoad reg_base key v = []) ∧
    (v > 4095 → emitCoefficientLoad reg_base key v =
      [.corfLui (reg_base + stoiChars (key.toList.drop 1)) (v / 4096),
       .corfAddi (reg_base + stoiChars (key.toList.drop 1)) reg_base (v % 4096)]) ∧
    (v ≠ 0 → v ≤ 4095 → emitCoefficientLoad reg_base key v =
      [.corfAddi (reg_base + stoiChars (key.toList.drop 1)) reg_base v]) := by
  refine ⟨?_, ?_, ?_⟩
  · intro hv; simp [emitCoefficientLoad, hv]
  · intro hv
    have hv0 : v ≠ 0 := by omega
    simp [emitCoefficientLoad, hv0, hv]
  · intro hv0 hv
    have : ¬ v > 4095 := by omega
    simp [emitCoefficientLoad, hv0, this]

/-- Claim C6 witness: the amended theorem applied at the coefficients 5000
(two-instruction form), 77 (single form) and 0 (nothing). -/
theorem C6_witness :
    emitCoefficientLoad 0 "c2" 5000 = [.corfLui 2 1, .corfAddi 2 0 904] ∧
    emitCoefficientLoad 0 "c1" 77 = [.corfAddi 1 0 77] ∧
    emitCoefficientLoad 0 "c0" 0 = [] := by
  refine ⟨?_, ?_, ?_⟩
  · rw [(C6_coefficient_emission 0 "c2" 5000).2.1 (by norm_num)]
    decide
  · rw [(C6_coefficient_emission 0 "c1" 77).2.2 (by norm_num) (by norm_num)]
    decide
  · exact (C6_coefficient_emission 0 "c0" 0).1 rfl

/-- Claim C8: the program emitter produces an assembly program for a PE
exactly when `pe % pes_per_cluster ≤ minimum_pes_required` and the
instruction count assigned to that PE position is in `[1, 10000)`; PEs
failing either condition are skipped. -/
theorem C8_emission_condition (total_pes pes_per_cluster minimum_pes_required : Nat)
    (pe_assignments : List PEAssignment) (pe : Nat)
    (hppc : 0 < pes_per_cluster) (hpe : pe < total_pes)
    (hidx : pe % pes_per_cluster < pe_assignments.length) :
    pe ∈ generateAssemblyPEs total_pes pes_per_cluster minimum_pes_required
        pe_assignments ↔
      (pe % pes_per_cluster ≤ minimum_pes_required ∧
        1 ≤ (pe_assignments.getD (pe % pes_per_cluster) default).instructions.length ∧
        (pe_assignments.getD (pe % pes_per_cluster) default).instructions.length
          < 10000) := by
  unfold generateAssemblyPEs
  rw [List.mem_filter, List.mem_range]
  constructor
  · rintro ⟨-, hb⟩
    dsimp only at hb
    split_ifs at hb with h1 h2
    exact ⟨by omega, by omega, by omega⟩
  · rintro ⟨h1, h2, h3⟩
    refine ⟨hpe, ?_⟩
    dsimp only
    split_ifs with hc1 hc2
    · omega
    · omega
    · rfl

/-- Claim C8 witness: the emission condition applied at a concrete
configuration (2 PEs, 1 per cluster, minimum 0, one single-instruction
assignment): PE 0 receives a program. -/
theorem C8_witness :
    0 ∈ generateAssemblyPEs 2 1 0 [{ instructions := [{}] }] :=
  (C8_emission_condition 2 1 0 [{ instructions := [{}] }] 0
      (by norm_num) (by norm_num) (by simp)).mpr
    (by simp)

theorem parseDispatch_unrecognized (op : String) (args : List String)
    (h : op ∉ recognizedMnemonics) : parseDispatch op args = "" := by
  have hm : ∀ s ∈ recognizedMnemonics, ¬ op = s := fun s hs heq => h (heq ▸ hs)
  simp only [recognizedMnemonics, List.forall_mem_cons, List.forall_mem_nil,
    and_true] at hm
  obtain ⟨m1, m2, m3, m4, m5, m6, m7, m8, m9, m10, m11, m12, m13, m14, m15, m16, m17, m18, m19, m20, m21, m22, m23, m24, m25, m26, m27, m28, m29, m30, m31, m32, m33, m34, m35, m36, m37, m38, m39, m40, m41, m42, m43, m44, m45⟩ := hm
  simp [parseDispatch, m1, m2, m3, m4, m5, m6, m7, m8, m9, m10, m11, m12, m13, m14, m15, m16, m17, m18, m19, m20, m21, m22, m23, m24, m25, m26, m27, m28, m29, m30, m31, m32, m33, m34, m35, m36, m37, m38, m39, m40, m41, m42, m43, m44, m45]

theorem emit_counts : ∀ (l : List AssembledInstruction) (pe : Nat) (st : EmitState),
    ((l.foldl (emitOne pe) st).preload_count +
        (l.foldl (emitOne pe) st).execution_count
      = st.preload_count + st.execution_count + l.length) ∧
    (l.foldl (emitOne pe) st).mem_entries.length
      = st.mem_entries.length + l.length ∧
    (l.foldl (emitOne pe) st).hex_lines.length
      = st.hex_lines.length + l.length
  | [], pe, st => by simp
  | i :: t, pe, st => by
    obtain ⟨ih1, ih2, ih3⟩ := emit_counts t pe (emitOne pe st i)
    have he : (emitOne pe st i).preload_count + (emitOne pe st i).execution_count
        = st.preload_count + st.execution_count + 1 ∧
        (emitOne pe st i).mem_entries.length = st.mem_entries.length + 1 ∧
        (emitOne pe st i).hex_lines.length = st.hex_lines.length + 1 := by
      unfold emitOne
      split_ifs <;> simp +arith [List.length_append]
    obtain ⟨he1, he2, he3⟩ := he
    simp only [List.foldl_cons, List.length_cons]
    omega

/-- Claim C7 counterexample: an unrecognized mnemonic does produce no binary
word, but the claim's assertion that the line contributes nothing to the hex
output, the memory records, and the section index counters is false: the
single line `foo x1, x2` is pushed through the emission loop, advances the
preload counter to 1, appends a blank hex line and writes the memory record
`@00000200 ` with an empty word. -/
theorem C7_counterexample :
    (parse_instruction "foo x1, x2").binary = "" ∧
    (assembleEmit 0 ["foo x1, x2"]).preload_count = 1 ∧
    (assembleEmit 0 ["foo x1, x2"]).mem_entries = ["@00000200 "] ∧
    (assembleEmit 0 ["foo x1, x2"]).hex_lines = [""] := by
  decide

/-- Claim C7 (amended): a line whose mnemonic is unrecognized produces no
encoded word and no diagnostic — its binary and hex are empty — but it still
occupies an address slot: every parsed (non-skipped) line, recognized or not,
advances its section counter and contributes one hex line and one memory
record. -/
theorem C7_unrecognized_line :
    (∀ (op : String) (args : List String), op ∉ recognizedMnemonics →
      parseDispatch op args = "") ∧
    (∀ line : String, (extractOp line.toList).1.asString ∉ recognizedMnemonics →
      (parse_instruction line).binary = "" ∧ (parse_instruction line).hex = "") ∧
    (∀ (pe : Nat) (lines : List String),
      (assembleEmit pe lines).preload_count + (assembleEmit pe lines).execution_count
        = (buildAssembled lines).length ∧
      (assembleEmit pe lines).mem_entries.length = (buildAssembled lines).length ∧
      (assembleEmit pe lines).hex_lines.length = (buildAssembled lines).length) := by
  refine ⟨parseDispatch_unrecognized, ?_, ?_⟩
  · intro line h
    have hb : (parse_instruction line).binary = "" :=
      parseDispatch_unrecognized _ _ h
    refine ⟨hb, ?_⟩
    unfold parse_instruction at hb ⊢
    dsimp only at hb ⊢
    rw [hb]
    simp
  · intro pe lines
    have h := emit_counts (buildAssembled lines) pe {}
    simpa using h

/-- Claim C7 witness: the amended theorem applied to the concrete line
`foo x1, x2`, whose mnemonic `foo` is unrecognized. -/
theorem C7_witness :
    (parse_instruction "foo x1, x2").binary = "" ∧
    (parse_instruction "foo x1, x2").hex = "" :=
  C7_unrecognized_line.2.1 "foo x1, x2" (by decide)

theorem mapInsert_append (m : List (Nat × List String)) (k : Nat) (v : List String)
    (h : k ∉ m.map Prod.fst) : mapInsert m k v = m ++ [(k, v)] := by
  induction m with
  | nil => rfl
  | cons a t ih =>
    obtain ⟨k', v'⟩ := a
    simp only [List.map_cons, List.mem_cons] at h
    push_neg at h
    simp only [mapInsert, List.cons_append]
    rw [if_neg h.1, ih h.2]

theorem foldl_mapInsert_append : ∀ (l m : List (Nat × List String)),
    ((m ++ l).map Prod.fst).Nodup →
    l.foldl (fun m kv => mapInsert m kv.1 kv.2) m = m ++ l
  | [], m, _ => by simp
  | a :: t, m, h => by
    have hk : a.1 ∉ m.map Prod.fst := by
      simp only [List.map_append, List.nodup_append, List.map_cons] at h
      intro hmem
      exact h.2.2 hmem (by simp)
    rw [List.foldl_cons, mapInsert_append m a.1 a.2 hk]
    have h2 := foldl_mapInsert_append t (m ++ [(a.1, a.2)]) (by simpa using h)
    simpa using h2

theorem buildMap_eq_self (files : List (Nat × List String))
    (h : (files.map Prod.fst).Nodup) : buildMap files = files := by
  have h2 := foldl_mapInsert_append files [] (by simpa using h)
  simpa [buildMap] using h2

theorem lookup_eq_none_iff (l : List (Nat × List String)) (k : Nat) :
    l.lookup k = none ↔ k ∉ l.map Prod.fst := by
  induction l with
  | nil => simp
  | cons a t ih =>
    obtain ⟨k', v'⟩ := a
    by_cases hk : k = k'
    · subst hk
      simp [List.lookup]
    · have hbeq : (k == k') = false := beq_eq_false_iff_ne.mpr hk
      simp [List.lookup, hbeq, ih, hk]

theorem lookup_mem (l : List (Nat × List String)) (k : Nat) (v : List String)
    (h : l.lookup k = some v) : (k, v) ∈ l := by
  induction l with
  | nil => simp [List.lookup] at h
  | cons a t ih =>
    obtain ⟨k', v'⟩ := a
    by_cases hk : k = k'
    · subst hk
      simp [List.lookup] at h
      simp [h]
    · have hbeq : (k == k') = false := beq_eq_false_iff_ne.mpr hk
      simp only [List.lookup, hbeq] at h
      exact List.mem_cons.mpr (Or.inr (ih h))

theorem lookup_of_mem_nodup (l : List (Nat × List String)) (k : Nat)
    (v : List String) (hnd : (l.map Prod.fst).Nodup) (h : (k, v) ∈ l) :
    l.lookup k = some v := by
  induction l with
  | nil => simp at h
  | cons a t ih =>
    obtain ⟨k', v'⟩ := a
    simp only [List.map_cons, List.nodup_cons] at hnd
    rcases List.mem_cons.mp h with heq | hmem
    · injection heq with h1 h2
      subst h1
      subst h2
      simp [List.lookup]
    · have hk : k ≠ k' := by
        rintro rfl
        exact hnd.1 (List.mem_map.mpr ⟨(k, v), hmem, rfl⟩)
      have hbeq : (k == k') = false := beq_eq_false_iff_ne.mpr hk
      simp only [List.lookup, hbeq]
      exact ih hnd.2 hmem

theorem lookup_perm (l1 l2 : List (Nat × List String)) (hp : l1.Perm l2)
    (hnd : (l1.map Prod.fst).Nodup) (k : Nat) : l1.lookup k = l2.lookup k := by
  have hnd2 : (l2.map Prod.fst).Nodup := ((hp.map Prod.fst).nodup_iff).mp hnd
  cases h1 : l1.lookup k with
  | none =>
    have hn := (lookup_eq_none_iff l1 k).mp h1
    have hn2 : k ∉ l2.map Prod.fst := fun hmem =>
      hn (((hp.map Prod.fst).mem_iff).mpr hmem)
    exact ((lookup_eq_none_iff l2 k).mpr hn2).symm
  | some v =>
    have hm2 : (k, v) ∈ l2 := hp.mem_iff.mp (lookup_mem l1 k v h1)
    exact (lookup_of_mem_nodup l2 k v hnd2 hm2).symm

theorem totalPEsOf_perm (l1 l2 : List (Nat × List String)) (hp : l1.Perm l2) :
    totalPEsOf l1 = totalPEsOf l2 := by
  unfold totalPEsOf
  suffices h : ∀ a : Nat,
      List.foldl (fun acc kv => if kv.1 ≠ 0xFFFF then max acc (kv.1 + 1) else acc) a l1 =
        List.foldl (fun acc kv => if kv.1 ≠ 0xFFFF then max acc (kv.1 + 1) else acc) a l2
    from h 0
  induction hp with
  | nil => intro a; rfl
  | cons x _ ih => intro a; simp only [List.foldl_cons]; exact ih _
  | swap x y l =>
    intro a
    simp only [List.foldl_cons]
    congr 1
    dsimp only
    split_ifs <;> first | rfl | apply Nat.max_right_comm
  | trans _ _ ih1 ih2 => intro a; rw [ih1 a, ih2 a]

theorem map_fst_filterMap_lookup (m : List (Nat × List String)) :
    ∀ l : List Nat,
      (l.filterMap (fun pe => (m.lookup pe).map (fun es => (pe, es)))).map Prod.fst
        = l.filter (fun pe => (m.lookup pe).isSome)
  | [] => rfl
  | a :: t => by
    cases h : m.lookup a <;>
      simp [List.filterMap_cons, List.filter_cons, h, map_fst_filterMap_lookup m t]

/-- Claim C9: the combined memory file lists one block per resolved PE in
strictly ascending PE-id order, followed by the unresolved (0xFFFF) entries,
and is independent of the order in which the input files were processed (for
a set of files, i.e. pairwise-distinct PE keys). -/
theorem C9_combined_ordering :
    (∀ files, List.Pairwise (· < ·) ((combinedBlocks (buildMap files)).map Prod.fst)) ∧
    (∀ files, combinedFile files =
        combinedBlocks (buildMap files) ++ unknownTail (buildMap files) ∧
      ∀ b ∈ unknownTail (buildMap files), b.1 = 0xFFFF) ∧
    (∀ files1 files2, files1.Perm files2 → (files1.map Prod.fst).Nodup →
      combinedFile files1 = combinedFile files2) := by
  refine ⟨?_, ?_, ?_⟩
  · intro files
    unfold combinedBlocks
    rw [map_fst_filterMap_lookup]
    exact List.Pairwise.sublist (List.filter_sublist _) (List.pairwise_lt_range _)
  · intro files
    refine ⟨rfl, ?_⟩
    intro b hb
    unfold unknownTail at hb
    cases h : (buildMap files).lookup 0xFFFF <;> rw [h] at hb <;> simp at hb
    simp [hb]
  · intro f1 f2 hp hnd
    have hnd2 : (f2.map Prod.fst).Nodup := ((hp.map Prod.fst).nodup_iff).mp hnd
    have hm1 : buildMap f1 = f1 := buildMap_eq_self f1 hnd
    have hm2 : buildMap f2 = f2 := buildMap_eq_self f2 hnd2
    have hlk : ∀ k, f1.lookup k = f2.lookup k := lookup_perm f1 f2 hp hnd
    unfold combinedFile combinedBlocks unknownTail
    rw [hm1, hm2, totalPEsOf_perm f1 f2 hp]
    congr 1
    · apply List.filterMap_congr
      intro x _
      rw [hlk x]
    · rw [hlk 0xFFFF]

/-- Claim C9 witness: order independence applied to two concrete processing
orders of the same two files. -/
theorem C9_witness :
    combinedFile [(2, ["b"]), (0, ["a"])] = combinedFile [(0, ["a"]), (2, ["b"])] :=
  C9_combined_ordering.2.2 [(2, ["b"]), (0, ["a"])] [(0, ["a"]), (2, ["b"])]
    (by decide) (by decide)

theorem length_natToBinDigits : ∀ (n k : Nat), (natToBinDigits n k).length = k
  | _, 0 => rfl
  | n, k + 1 => by
    simp [natToBinDigits, length_natToBinDigits (n / 2) k]

theorem length_to_binaryChars (num : Int) (k : Nat) :
    (to_binaryChars num k).length = k := by
  simp [to_binaryChars, length_natToBinDigits]

theorem length_to_binary (num : Int) (k : Nat) : (to_binary num k).length = k := by
  simp [to_binary, List.length_asString, length_to_binaryChars]

theorem parseBinChars_fold_lt : ∀ (l : List Char) (a : Nat),
    l.foldl (fun a c => a * 2 + (if c = '1' then 1 else 0)) a
      < (a + 1) * 2 ^ l.length
  | [], a => by simp
  | c :: t, a => by
    have h1 := parseBinChars_fold_lt t (a * 2 + (if c = '1' then 1 else 0))
    have hb : (if c = '1' then (1 : Nat) else 0) ≤ 1 := by split_ifs <;> omega
    have h2 : (a * 2 + (if c = '1' then 1 else 0) + 1) * 2 ^ t.length
        ≤ ((a + 1) * 2) * 2 ^ t.length := by
      exact Nat.mul_le_mul_right _ (by omega)
    have h3 : ((a + 1) * 2) * 2 ^ t.length = (a + 1) * 2 ^ (t.length + 1) := by
      ring
    simp only [List.foldl_cons, List.length_cons]
    omega

theorem parseBinChars_lt (l : List Char) : parseBinChars l < 2 ^ l.length := by
  have h := parseBinChars_fold_lt l 0
  simpa [parseBinChars] using h

theorem length_natToHexFuel_le : ∀ (fuel n k : Nat), n < 16 ^ (k + 1) →
    (natToHexFuel fuel n).length ≤ k + 1
  | 0, _, _, _ => by simp [natToHexFuel]
  | fuel + 1, n, k, h => by
    rw [natToHexFuel]
    split_ifs with h16
    · simp
    · have hk : 1 ≤ k := by
        by_contra hk0
        have hz : k = 0 := by omega
        subst hz
        simp at h
        omega
      have hdiv : n / 16 < 16 ^ k := by
        have hp : (16 : Nat) ^ (k + 1) = 16 ^ k * 16 := by ring
        omega
      have hrec := length_natToHexFuel_le fuel (n / 16) (k - 1) (by
        have he : k - 1 + 1 = k := by omega
        rw [he]
        exact hdiv)
      simp only [List.length_append, List.length_cons, List.length_nil]
      omega

theorem length_natToHexAux_le (n k : Nat) (h : n < 16 ^ (k + 1)) :
    (natToHexAux n).length ≤ k + 1 :=
  length_natToHexFuel_le n n k h

theorem length_natToHexPadded (n w : Nat) (h : (natToHexAux n).length ≤ w) :
    (natToHexPadded n w).length = w := by
  simp [natToHexPadded, List.length_asString, List.length_append,
    List.length_replicate]
  omega

theorem to_hex_length (s : String) (h : s.length ≤ 32) : (to_hex s).length = 8 := by
  have hlt : parseBinChars s.toList < 16 ^ 8 := by
    have h1 := parseBinChars_lt s.toList
    have h2 : (2 : Nat) ^ s.toList.length ≤ 2 ^ 32 :=
      Nat.pow_le_pow_right (by norm_num) h
    calc parseBinChars s.toList < 2 ^ s.toList.length := h1
      _ ≤ 2 ^ 32 := h2
      _ = 16 ^ 8 := by norm_num
  exact length_natToHexPadded _ 8 (length_natToHexAux_le _ 7 hlt)

theorem len32_hex8 (s : String) (h : s.length = 32) : (to_hex s).length = 8 :=
  to_hex_length s (by omega)

theorem length_assemble_r_type (i rd rs1 rs2 : String)
    (hop : (tableGet instructionsTable i).length = 7)
    (h3 : (tableGet funct3Table i).length = 3)
    (h7 : (tableGet funct7Table i).length = 7) :
    (assemble_r_type i rd rs1 rs2).length = 32 := by
  unfold assemble_r_type
  split_ifs <;> simp [String.length_append, length_to_binary, hop, h3, h7]

theorem length_assemble_i_type (i rd rs1 : String) (imm : Int)
    (hop : (tableGet instructionsTable i).length = 7)
    (h3 : (tableGet funct3Table i).length = 3) :
    (assemble_i_type i rd rs1 imm).length = 32 := by
  simp [assemble_i_type, String.length_append, length_to_binary, hop, h3]

theorem length_assemble_s_type (i rs1 rs2 : String) (imm : Int)
    (hop : (tableGet instructionsTable i).length = 7)
    (h3 : (tableGet funct3Table i).length = 3) :
    (assemble_s_type i rs1 rs2 imm).length = 32 := by
  simp [assemble_s_type, String.length_append, List.length_asString,
    List.length_take, List.length_drop, length_to_binaryChars, length_to_binary,
    hop, h3]

theorem length_assemble_b_type (i rs1 rs2 : String) (imm : Int)
    (hop : (tableGet instructionsTable i).length = 7)
    (h3 : (tableGet funct3Table i).length = 3) :
    (assemble_b_type i rs1 rs2 imm).length = 32 := by
  simp [assemble_b_type, String.length_append, List.length_asString,
    List.length_take, List.length_drop, length_to_binaryChars, length_to_binary,
    hop, h3]

theorem length_assemble_u_type (i rd : String) (imm : Int)
    (hop : (tableGet instructionsTable i).length = 7) :
    (assemble_u_type i rd imm).length = 32 := by
  simp [assemble_u_type, String.length_append, length_to_binary, hop]

theorem length_assemble_psrf_lw_sw (i rd rs1 : String) (imm : Int)
    (hop : (tableGet instructionsTable i).length = 7)
    (h3 : (tableGet funct3Table i).length = 3) :
    (assemble_psrf_lw_sw i rd rs1 imm).length = 32 := by
  simp [assemble_psrf_lw_sw, String.length_append, length_to_binary, hop, h3]

theorem length_assemble_corf_lui (rd : String) (imm : Int) :
    (assemble_corf_lui "corf.lui" rd imm).length = 32 := by
  simp [assemble_corf_lui, String.length_append, length_to_binary]
  decide

theorem length_assemble_corf_addi (rd rs1 : String) (imm : Int) :
    (assemble_corf_addi "corf.addi" rd rs1 imm).length = 32 := by
  simp [assemble_corf_addi, String.length_append, length_to_binary]
  decide

theorem length_assemble_ppsrf_addi (rd rs1 : String) (imm : Int) :
    (assemble_ppsrf_addi "ppsrf.addi" rd rs1 imm).length = 32 := by
  simp [assemble_ppsrf_addi, String.length_append, length_to_binary]
  decide

theorem length_assemble_hwlrf_lui (rd : String) (imm : Int) :
    (assemble_hwlrf_lui rd imm).length = 32 := by
  simp [assemble_hwlrf_lui, String.length_append, length_to_binary]
  decide

theorem length_assemble_hwlrf_addi (rd rs1 : String) (imm : Int) :
    (assemble_hwlrf_addi rd rs1 imm).length = 32 := by
  simp [assemble_hwlrf_addi, String.length_append, length_to_binary]
  decide

theorem length_assemble_j_type (rd : String) (imm : Int) :
    (assemble_j_type rd imm).length = 32 := by
  simp [assemble_j_type, String.length_append, List.length_asString,
    List.length_take, List.length_drop, length_to_binaryChars, length_to_binary]
  decide

/-- Claim C10: every instruction the encoder successfully encodes — any
recognized mnemonic of each format class, for arbitrary operand strings and
immediates — yields a binary string of exactly 32 bits, and its hexadecimal
rendering has exactly 8 digits. -/
theorem C10_encoded_width :
    (∀ i rd rs1 rs2 : String,
      i ∈ ["add", "sub", "sll", "slt", "sltu", "xor", "srl", "sra", "or",
        "and", "mul", "slli", "srli", "srai"] →
      (assemble_r_type i rd rs1 rs2).length = 32 ∧
        (to_hex (assemble_r_type i rd rs1 rs2)).length = 8) ∧
    (∀ (i rd rs1 : String) (imm : Int),
      i ∈ ["addi", "slti", "sltiu", "xori", "ori", "andi", "jalr"] →
      (assemble_i_type i rd rs1 imm).length = 32 ∧
        (to_hex (assemble_i_type i rd rs1 imm)).length = 8) ∧
    (∀ (i rs1 rs2 : String) (imm : Int), i ∈ ["sb", "sh", "sw"] →
      (assemble_s_type i rs1 rs2 imm).length = 32 ∧
        (to_hex (assemble_s_type i rs1 rs2 imm)).length = 8) ∧
    (∀ (i rs1 rs2 : String) (imm : Int),
      i ∈ ["beq", "bne", "blt", "bge", "bltu", "bgeu"] →
      (assemble_b_type i rs1 rs2 imm).length = 32 ∧
        (to_hex (assemble_b_type i rs1 rs2 imm)).length = 8) ∧
    (∀ (i rd : String) (imm : Int), i ∈ ["lui", "auipc"] →
      (assemble_u_type i rd imm).length = 32 ∧
        (to_hex (assemble_u_type i rd imm)).length = 8) ∧
    (∀ (rd : String) (imm : Int), (assemble_j_type rd imm).length = 32 ∧
      (to_hex (assemble_j_type rd imm)).length = 8) ∧
    (∀ (i rd rs1 : String) (imm : Int),
      i ∈ ["psrf.lw", "psrf.lb", "psrf.zd.lw", "psrf.sw", "psrf.sb"] →
      (assemble_psrf_lw_sw i rd rs1 imm).length = 32 ∧
        (to_hex (assemble_psrf_lw_sw i rd rs1 imm)).length = 8) ∧
    (∀ (rd rs1 : String) (imm : Int),
      (assemble_corf_addi "corf.addi" rd rs1 imm).length = 32 ∧
        (to_hex (assemble_corf_addi "corf.addi" rd rs1 imm)).length = 8) ∧
    (∀ (rd : String) (imm : Int),
      (assemble_corf_lui "corf.lui" rd imm).length = 32 ∧
        (to_hex (assemble_corf_lui "corf.lui" rd imm)).length = 8) ∧
    (∀ (rd rs1 : String) (imm : Int),
      (assemble_ppsrf_addi "ppsrf.addi" rd rs1 imm).length = 32 ∧
        (to_hex (assemble_ppsrf_addi "ppsrf.addi" rd rs1 imm)).length = 8) ∧
    (∀ (rd : String) (imm : Int), (assemble_hwlrf_lui rd imm).length = 32 ∧
      (to_hex (assemble_hwlrf_lui rd imm)).length = 8) ∧
    (∀ (rd rs1 : String) (imm : Int),
      (assemble_hwlrf_addi rd rs1 imm).length = 32 ∧
        (to_hex (assemble_hwlrf_addi rd rs1 imm)).length = 8) := by
  refine ⟨?_, ?_, ?_, ?_, ?_, ?_, ?_, ?_, ?_, ?_, ?_, ?_⟩
  · intro i rd rs1 rs2 h
    have hl : (assemble_r_type i rd rs1 rs2).length = 32 := by
      fin_cases h <;>
        exact length_assemble_r_type _ _ _ _ (by decide) (by decide) (by decide)
    exact ⟨hl, len32_hex8 _ hl⟩
  · intro i rd rs1 imm h
    have hl : (assemble_i_type i rd rs1 imm).length = 32 := by
      fin_cases h <;> exact length_assemble_i_type _ _ _ _ (by decide) (by decide)
    exact ⟨hl, len32_hex8 _ hl⟩
  · intro i rs1 rs2 imm h
    have hl : (assemble_s_type i rs1 rs2 imm).length = 32 := by
      fin_cases h <;> exact length_assemble_s_type _ _ _ _ (by decide) (by decide)
    exact ⟨hl, len32_hex8 _ hl⟩
  · intro i rs1 rs2 imm h
    have hl : (assemble_b_type i rs1 rs2 imm).length = 32 := by
      fin_cases h <;> exact length_assemble_b_type _ _ _ _ (by decide) (by decide)
    exact ⟨hl, len32_hex8 _ hl⟩
  · intro i rd imm h
    have hl : (assemble_u_type i rd imm).length = 32 := by
      fin_cases h <;> exact length_assemble_u_type _ _ _ (by decide)
    exact ⟨hl, len32_hex8 _ hl⟩
  · intro rd imm
    exact ⟨length_assemble_j_type rd imm, len32_hex8 _ (length_assemble_j_type rd imm)⟩
  · intro i rd rs1 imm h
    have hl : (assemble_psrf_lw_sw i rd rs1 imm).length = 32 := by
      fin_cases h <;> exact length_assemble_psrf_lw_sw _ _ _ _ (by decide) (by decide)
    exact ⟨hl, len32_hex8 _ hl⟩
  · intro rd rs1 imm
    exact ⟨length_assemble_corf_addi rd rs1 imm,
      len32_hex8 _ (length_assemble_corf_addi rd rs1 imm)⟩
  · intro rd imm
    exact ⟨length_assemble_corf_lui rd imm,
      len32_hex8 _ (length_assemble_corf_lui rd imm)⟩
  · intro rd rs1 imm
    exact ⟨length_assemble_ppsrf_addi rd rs1 imm,
      len32_hex8 _ (length_assemble_ppsrf_addi rd rs1 imm)⟩
  · intro rd imm
    exact ⟨length_assemble_hwlrf_lui rd imm,
      len32_hex8 _ (length_assemble_hwlrf_lui rd imm)⟩
  · intro rd rs1 imm
    exact ⟨length_assemble_hwlrf_addi rd rs1 imm,
      len32_hex8 _ (length_assemble_hwlrf_addi rd rs1 imm)⟩

/-- Claim C10 witness: the width theorem applied at concrete instructions of
the hypothesis-bearing format classes. -/
theorem C10_witness :
    ((assemble_r_type "add" "x1" "x2" "x3").length = 32 ∧
      (to_hex (assemble_r_type "add" "x1" "x2" "x3")).length = 8) ∧
    ((assemble_i_type "addi" "x1" "x2" 100).length = 32 ∧
      (to_hex (assemble_i_type "addi" "x1" "x2" 100)).length = 8) ∧
    ((assemble_s_type "sw" "x10" "x5" 8).length = 32 ∧
      (to_hex (assemble_s_type "sw" "x10" "x5" 8)).length = 8) ∧
    ((assemble_b_type "beq" "x1" "x2" 16).length = 32 ∧
      (to_hex (assemble_b_type "beq" "x1" "x2" 16)).length = 8) ∧
    ((assemble_u_type "lui" "x1" 1).length = 32 ∧
      (to_hex (assemble_u_type "lui" "x1" 1)).length = 8) ∧
    ((assemble_psrf_lw_sw "psrf.lw" "x1" "x10" 0).length = 32 ∧
      (to_hex (assemble_psrf_lw_sw "psrf.lw" "x1" "x10" 0)).length = 8) :=
  ⟨C10_encoded_width.1 "add" "x1" "x2" "x3" (by decide),
   C10_encoded_width.2.1 "addi" "x1" "x2" 100 (by decide),
   C10_encoded_width.2.2.1 "sw" "x10" "x5" 8 (by decide),
   C10_encoded_width.2.2.2.1 "beq" "x1" "x2" 16 (by decide),
   C10_encoded_width.2.2.2.2.1 "lui" "x1" 1 (by decide),
   C10_encoded_width.2.2.2.2.2.2.1 "psrf.lw" "x1" "x10" 0 (by decide)⟩
